import Mathlib

set_option maxHeartbeats 1000000

/-
Shallow embedding of `src/app/sites/deviantart/service.py` (morningdip/artworks-downloader):
the credential lifecycle (`_save_tokens`, `_ensure_access`, `_fetch_access_token`,
`_refresh_token`, `_authorize`) and the resilient paginated fetcher (`_pager`),
plus the streaming facade `list_folder_arts`.

Network interaction is modelled by passing the sequence of server responses as
explicit data; the observable behaviour of a run (HTTP requests with their offset,
sleeps, `_ensure_access` calls, yielded items, persisted credential snapshots)
is collected as an event trace.
-/

namespace DA

/-- Default backoff timeout in seconds: `DEFAULT_RATE_LIMIT_TIMEOUT = 32` in `service.py`. -/
def DEFAULT_RATE_LIMIT_TIMEOUT : Nat := 32

/-- The invalid-code message `INVALID_CODE_MSG` compared against `error_description`. -/
def INVALID_CODE_MSG : String := "Incorrect authorization code."

/-- One JSON page response as consumed by `_pager`: the HTTP `status`, aiohttp's
`response.ok` flag (status below 400), whether the JSON body contains an `error`
key, and the `results` / `has_more` / `next_offset` fields of the body. -/
structure PageResponse (α : Type) where
  status : Nat
  ok : Bool
  hasError : Bool
  results : List α
  has_more : Bool
  next_offset : Nat
  deriving DecidableEq

/-- Observable actions of one `_pager` run: an HTTP request carrying its `offset`
param, the one-time rate-limit diagnostic print, a call to `_ensure_access`, an
`asyncio.sleep`, or a `yield`ed item. -/
inductive PagerEvent (α : Type) where
  | request (offset : Nat)
  | rateLimitPrint (offset : Nat)
  | ensureAccess
  | sleep (sec : Nat)
  | yieldItem (x : α)
  deriving DecidableEq

/-- How a `_pager` run ends: normal `break` on `has_more = False`, `quit(1)` on an
`error` body, an exception from `response.raise_for_status()`, or truncation of the
modelled response sequence. -/
inductive PagerOutcome where
  | finished
  | quitError
  | raised (status : Nat)
  | exhausted
  deriving DecidableEq

/-- The diagnostic part of the 429 branch of `_pager`, emitted before the sleep:
the one-time rate-limit print when `rate_limit_sec` is still at its default,
otherwise a forced `_ensure_access` when `rate_limit_sec > 64 * 10`. -/
def throttleDiag {α : Type} (offset sec : Nat) : List (PagerEvent α) :=
  if sec = DEFAULT_RATE_LIMIT_TIMEOUT then [PagerEvent.rateLimitPrint offset]
  else if sec > 64 * 10 then [PagerEvent.ensureAccess]
  else []

/-- The non-throttled tail of one `_pager` loop iteration:
`response.raise_for_status()`, then yield every entry of `data['results']` in
order, then either `break` (when `data['has_more'] is False`) or continue with
`params['offset'] = data['next_offset']`; `tail` is the run of the remaining
responses at that new offset. -/
def pagerProceed {α : Type} (r : PageResponse α) (tail : List (PagerEvent α) × PagerOutcome) :
    List (PagerEvent α) × PagerOutcome :=
  if r.ok = false then
    ([], PagerOutcome.raised r.status)
  else if r.has_more = false then
    (r.results.map PagerEvent.yieldItem, PagerOutcome.finished)
  else
    (r.results.map PagerEvent.yieldItem ++ tail.1, tail.2)

/-- Shallow embedding of `_pager`'s `while True` loop, consuming one response per
HTTP request and carrying the current `offset` and `rate_limit_sec`. Running out
of modelled responses truncates the (potentially unbounded) interaction. The
`elif` chain of the source means the `error`-body check only runs when
`rate_limit_sec` is at its default; otherwise the iteration resets the wait to the
default and calls `_ensure_access` first. A 429 response sleeps, doubles the wait
and retries at the same offset without yielding. -/
def pagerRun {α : Type} : List (PageResponse α) → Nat → Nat → List (PagerEvent α) × PagerOutcome
  | [], _, _ => ([], PagerOutcome.exhausted)
  | r :: rest, offset, sec =>
    if r.status = 429 then
      let tail := pagerRun rest offset (sec * 2)
      (PagerEvent.request offset :: (throttleDiag offset sec ++ PagerEvent.sleep sec :: tail.1),
        tail.2)
    else if sec = DEFAULT_RATE_LIMIT_TIMEOUT then
      if r.hasError then
        ([PagerEvent.request offset], PagerOutcome.quitError)
      else
        let p := pagerProceed r (pagerRun rest r.next_offset DEFAULT_RATE_LIMIT_TIMEOUT)
        (PagerEvent.request offset :: p.1, p.2)
    else
      let p := pagerProceed r (pagerRun rest r.next_offset DEFAULT_RATE_LIMIT_TIMEOUT)
      (PagerEvent.request offset :: PagerEvent.ensureAccess :: p.1, p.2)

/-- A full `_pager` call: the loop starts at `offset = 0` (with fixed `limit = 24`)
and `rate_limit_sec = DEFAULT_RATE_LIMIT_TIMEOUT`. -/
def pager {α : Type} (responses : List (PageResponse α)) : List (PagerEvent α) × PagerOutcome :=
  pagerRun responses 0 DEFAULT_RATE_LIMIT_TIMEOUT

/-- The events produced by `k` consecutive 429 responses handled at the same
`offset`, starting from wait `sec`: request, diagnostic, sleep, with the wait
doubling each time. -/
def throttleEvents (α : Type) (offset : Nat) : Nat → Nat → List (PagerEvent α)
  | 0, _ => []
  | k + 1, sec =>
    PagerEvent.request offset
      :: (throttleDiag offset sec ++ PagerEvent.sleep sec :: throttleEvents α offset k (sec * 2))

/-- Items yielded in an event trace, in order. -/
def yieldsOf {α : Type} : List (PagerEvent α) → List α
  | [] => []
  | PagerEvent.yieldItem x :: es => x :: yieldsOf es
  | PagerEvent.request _ :: es => yieldsOf es
  | PagerEvent.rateLimitPrint _ :: es => yieldsOf es
  | PagerEvent.ensureAccess :: es => yieldsOf es
  | PagerEvent.sleep _ :: es => yieldsOf es

/-- Offsets of the HTTP requests in an event trace, in order. -/
def requestsOf {α : Type} : List (PagerEvent α) → List Nat
  | [] => []
  | PagerEvent.request o :: es => o :: requestsOf es
  | PagerEvent.yieldItem _ :: es => requestsOf es
  | PagerEvent.rateLimitPrint _ :: es => requestsOf es
  | PagerEvent.ensureAccess :: es => requestsOf es
  | PagerEvent.sleep _ :: es => requestsOf es

/-- Sleep durations in an event trace, in order. -/
def sleepsOf {α : Type} : List (PagerEvent α) → List Nat
  | [] => []
  | PagerEvent.sleep s :: es => s :: sleepsOf es
  | PagerEvent.request _ :: es => sleepsOf es
  | PagerEvent.rateLimitPrint _ :: es => sleepsOf es
  | PagerEvent.ensureAccess :: es => sleepsOf es
  | PagerEvent.yieldItem _ :: es => sleepsOf es

/-- Number of `_ensure_access` calls in an event trace. -/
def ensureCount {α : Type} : List (PagerEvent α) → Nat
  | [] => 0
  | PagerEvent.ensureAccess :: es => ensureCount es + 1
  | PagerEvent.request _ :: es => ensureCount es
  | PagerEvent.rateLimitPrint _ :: es => ensureCount es
  | PagerEvent.sleep _ :: es => ensureCount es
  | PagerEvent.yieldItem _ :: es => ensureCount es

/-- A well-formed page response: not rate limited, HTTP-successful, and without an
`error` field in the body. -/
def clean {α : Type} (r : PageResponse α) : Prop :=
  r.status ≠ 429 ∧ r.ok = true ∧ r.hasError = false

instance cleanDecidable {α : Type} (r : PageResponse α) : Decidable (clean r) := by
  unfold clean
  infer_instance

/-- The `creds[SLUG][OAUTH_KEY]` sub-dictionary of the credential store: the
optional one-time `code`, `access_token` and `refresh_token`. -/
structure OAuthCreds where
  code : Option String
  access_token : Option String
  refresh_token : Option String
  deriving DecidableEq

/-- The per-identity record `creds[SLUG]` of the credential store. -/
structure SiteCreds where
  client_id : String
  client_secret : String
  oauth : OAuthCreds
  deriving DecidableEq

/-- The mutable fields of `DAService`: the credentials loaded at construction
(`self.creds[SLUG]`, never mutated afterwards because `_save_tokens` works on a
`deepcopy`) and the instance attributes copied out of them in `__init__`. -/
structure DAState where
  creds : SiteCreds
  client_id : String
  client_secret : String
  code : Option String
  access_token : Option String
  refresh_token : Option String
  deriving DecidableEq

/-- `DAService.__init__`: copy `client_id`, `client_secret`, `code`,
`access_token` and `refresh_token` out of the loaded store record. -/
def initState (c : SiteCreds) : DAState :=
  { creds := c
    client_id := c.client_id
    client_secret := c.client_secret
    code := c.oauth.code
    access_token := c.oauth.access_token
    refresh_token := c.oauth.refresh_token }

/-- `_save_tokens`: deep-copy the loaded creds, `pop` the `code` key, overwrite
`access_token` and `refresh_token` with the current instance attributes, and hand
the result to `save_creds`. The returned value is the snapshot persisted to the
external store. -/
def save_tokens (s : DAState) : SiteCreds :=
  { s.creds with
      oauth :=
        { code := none
          access_token := s.access_token
          refresh_token := s.refresh_token } }

/-- A token-endpoint response as consumed by `_authorize`: aiohttp's
`response.ok`, whether the JSON body contains an `error` key, and the optional
`error_description`, `access_token` and `refresh_token` fields of the body. -/
structure TokenResponse where
  ok : Bool
  hasError : Bool
  error_description : Option String
  access_token : Option String
  refresh_token : Option String
  deriving DecidableEq

/-- How one `_authorize` call ends: a successful exchange (tokens applied and
persisted), `quit(1)` after printing the error description, the
`'Please authorize again'` invalid-code branch, a silent fall-through of the
`if`/`elif` chain, or a `KeyError` from a missing dictionary key. -/
inductive AuthResult where
  | exchanged
  | fatalQuit
  | needsReauth
  | silentReturn
  | keyError
  deriving DecidableEq

/-- Shallow embedding of `_authorize` applied to the token-endpoint response:
returns the new instance state, the credential snapshot persisted by
`_save_tokens` (if any), and how the call ended. The source assigns
`self.access_token = data['access_token']` before
`self.refresh_token = data['refresh_token']`, so a body with `access_token` but
no `refresh_token` leaves a partially updated instance behind its `KeyError`
(but persists nothing). -/
def authorize (s : DAState) (data : TokenResponse) : DAState × Option SiteCreds × AuthResult :=
  if data.hasError then
    match data.error_description with
    | some _ => (s, none, AuthResult.fatalQuit)
    | none => (s, none, AuthResult.keyError)
  else if data.ok then
    match data.access_token, data.refresh_token with
    | some a, some r =>
      let s' := { s with access_token := some a, refresh_token := some r }
      (s', some (save_tokens s'), AuthResult.exchanged)
    | some a, none => ({ s with access_token := some a }, none, AuthResult.keyError)
    | none, _ => (s, none, AuthResult.keyError)
  else
    match data.error_description with
    | some d =>
      if d = INVALID_CODE_MSG then (s, none, AuthResult.needsReauth)
      else (s, none, AuthResult.silentReturn)
    | none => (s, none, AuthResult.keyError)

/-- The `grant_type` of a token exchange. -/
inductive GrantKind where
  | authorization_code
  | refresh_token
  deriving DecidableEq

/-- HTTP calls observable during `_ensure_access`: the `placebo` probe request or
a `POST /oauth2/token` exchange with its grant kind. -/
inductive EnsureEvent where
  | probeCall
  | tokenCall (kind : GrantKind)
  deriving DecidableEq

/-- How an `_ensure_access` call ends: an early return after a successful probe,
the result of a delegated `_authorize`, the `quit(1)` of `_fetch_access_token`
when no code is stored, or the `'No refresh token'` exception of
`_refresh_token`. -/
inductive EnsureOutcome where
  | done
  | auth (r : AuthResult)
  | quitNoCode
  | raiseNoRefresh
  deriving DecidableEq

/-- `_fetch_access_token`: `quit(1)` when no `authorization_code` is stored,
otherwise delegate to `_authorize` with `grant_type = authorization_code`. -/
def fetch_access_token (s : DAState) (data : TokenResponse) :
    List EnsureEvent × DAState × Option SiteCreds × EnsureOutcome :=
  match s.code with
  | none => ([], s, none, EnsureOutcome.quitNoCode)
  | some _ =>
    let r := authorize s data
    ([EnsureEvent.tokenCall GrantKind.authorization_code], r.1, r.2.1, EnsureOutcome.auth r.2.2)

/-- `_refresh_token` (the method): raise when no `refresh_token` is stored,
otherwise delegate to `_authorize` with `grant_type = refresh_token`. -/
def refresh_access_token (s : DAState) (data : TokenResponse) :
    List EnsureEvent × DAState × Option SiteCreds × EnsureOutcome :=
  match s.refresh_token with
  | none => ([], s, none, EnsureOutcome.raiseNoRefresh)
  | some _ =>
    let r := authorize s data
    ([EnsureEvent.tokenCall GrantKind.refresh_token], r.1, r.2.1, EnsureOutcome.auth r.2.2)

/-- Shallow embedding of `_ensure_access`: with no `refresh_token`, delegate to
`_fetch_access_token`; otherwise issue the `placebo` probe (`probeSuccess` models
whether its JSON `status` equals `'success'`) and return immediately on success,
else delegate to `_refresh_token`. `data` is the token-endpoint response consumed
by `_authorize` when an exchange does happen. -/
def ensure_access (s : DAState) (probeSuccess : Bool) (data : TokenResponse) :
    List EnsureEvent × DAState × Option SiteCreds × EnsureOutcome :=
  match s.refresh_token with
  | none => fetch_access_token s data
  | some _ =>
    if probeSuccess then ([EnsureEvent.probeCall], s, none, EnsureOutcome.done)
    else
      let r := refresh_access_token s data
      (EnsureEvent.probeCall :: r.1, r.2)

/-- Number of token-endpoint exchanges in an `_ensure_access` event list. -/
def tokenCallCount (evs : List EnsureEvent) : Nat :=
  (evs.filter fun e =>
    match e with
    | EnsureEvent.tokenCall _ => true
    | _ => false).length

/-- The fields of one raw artwork record that `list_folder_arts` reads:
`art['author']['username']`, `art['url']` and `art['deviationid']`. -/
structure Art where
  author_username : String
  url : String
  deviationid : String
  deriving DecidableEq

/-- Modelled from the spec: `SLUG` lives in `app.sites.deviantart.common`, which
is not under `src/`; the spec only calls it the identity slug of this site, so it
is modelled as an opaque-to-the-claims constant string. -/
def SLUG : String := "deviantart"

/-- Modelled from the spec: `make_cache_key` lives in
`app.sites.deviantart.common`, which is not under `src/`; the spec says the cache
is keyed by the pair `(authorUsername, itemUrl)`. -/
def make_cache_key (author url : String) : String × String :=
  (author, url)

/-- Observable actions of the `list_folder_arts` loop: a `cache.insert` call with
its slug, key and internal id, or a record yielded to the caller. -/
inductive ArtEvent where
  | cacheInsert (slug : String) (key : String × String) (id : String)
  | yieldArt (a : Option Art)
  deriving DecidableEq

/-- Shallow embedding of the `async for` body of `list_folder_arts`, applied to
the sequence of records produced by `_pager` (a record may be `None`): every
non-`None` record is first registered in the cache under
`make_cache_key(art['author']['username'], art['url'])` with value
`art['deviationid']`, then every record is yielded as-is. -/
def list_folder_arts : List (Option Art) → List ArtEvent
  | [] => []
  | none :: rest => ArtEvent.yieldArt none :: list_folder_arts rest
  | some art :: rest =>
    ArtEvent.cacheInsert SLUG (make_cache_key art.author_username art.url) art.deviationid
      :: ArtEvent.yieldArt (some art) :: list_folder_arts rest

/-- Records yielded to the caller of `list_folder_arts`, in order. -/
def yieldedArts : List ArtEvent → List (Option Art)
  | [] => []
  | ArtEvent.yieldArt a :: es => a :: yieldedArts es
  | ArtEvent.cacheInsert _ _ _ :: es => yieldedArts es

/-- Cache notifications issued by `list_folder_arts`, in order. -/
def cacheInserts : List ArtEvent → List (String × (String × String) × String)
  | [] => []
  | ArtEvent.cacheInsert s k i :: es => (s, k, i) :: cacheInserts es
  | ArtEvent.yieldArt _ :: es => cacheInserts es

/-- A well-formed page response over `Nat` items, for concrete instantiations. -/
def pageEx (res : List Nat) (more : Bool) (nxt : Nat) : PageResponse Nat :=
  { status := 200, ok := true, hasError := false, results := res, has_more := more
    next_offset := nxt }

/-- A rate-limited (HTTP 429) response, for concrete instantiations. -/
def throttleEx : PageResponse Nat :=
  { status := 429, ok := false, hasError := false, results := [], has_more := true
    next_offset := 0 }

/-- A concrete loaded credential record, for concrete instantiations. -/
def siteEx : SiteCreds :=
  { client_id := "cid", client_secret := "csecret"
    oauth := { code := some "c0", access_token := some "a0", refresh_token := some "r0" } }

/-- A concrete service state, for concrete instantiations. -/
def stateEx : DAState := initState siteEx

/-- A successful token-endpoint response, for concrete instantiations. -/
def tokenOkEx : TokenResponse :=
  { ok := true, hasError := false, error_description := none
    access_token := some "a1", refresh_token := some "r1" }

/-- An HTTP-failure token-endpoint response whose body has no `error` key but an
invalid-code `error_description`, for concrete instantiations. -/
def tokenInvalidEx : TokenResponse :=
  { ok := false, hasError := false, error_description := some INVALID_CODE_MSG
    access_token := none, refresh_token := none }

/-- An HTTP-failure token-endpoint response whose body has an `error` key and the
invalid-code `error_description`, for concrete instantiations. -/
def tokenErrEx : TokenResponse :=
  { ok := false, hasError := true, error_description := some INVALID_CODE_MSG
    access_token := none, refresh_token := none }

/-- An HTTP-failure token-endpoint response with neither `error` key nor
`error_description`, for concrete instantiations. -/
def tokenBareFailEx : TokenResponse :=
  { ok := false, hasError := false, error_description := none
    access_token := none, refresh_token := none }

/-- A concrete artwork record, for concrete instantiations. -/
def artEx : Art :=
  { author_username := "alice", url := "https://example.org/art/1", deviationid := "dev1" }

/-- The credential snapshot persisted when `stateEx` consumes `tokenOkEx`, for
concrete instantiations. -/
def savedEx : SiteCreds :=
  { client_id := "cid", client_secret := "csecret"
    oauth := { code := none, access_token := some "a1", refresh_token := some "r1" } }

/- Helper lemmas about the event extractors. -/

theorem yieldsOf_append {α : Type} (a b : List (PagerEvent α)) :
    yieldsOf (a ++ b) = yieldsOf a ++ yieldsOf b := by
  induction a with
  | nil => rfl
  | cons e es ih => cases e <;> simp [yieldsOf, ih]

theorem requestsOf_append {α : Type} (a b : List (PagerEvent α)) :
    requestsOf (a ++ b) = requestsOf a ++ requestsOf b := by
  induction a with
  | nil => rfl
  | cons e es ih => cases e <;> simp [requestsOf, ih]

theorem sleepsOf_append {α : Type} (a b : List (PagerEvent α)) :
    sleepsOf (a ++ b) = sleepsOf a ++ sleepsOf b := by
  induction a with
  | nil => rfl
  | cons e es ih => cases e <;> simp [sleepsOf, ih]

theorem yieldsOf_map_yieldItem {α : Type} (l : List α) :
    yieldsOf (l.map PagerEvent.yieldItem) = l := by
  induction l with
  | nil => rfl
  | cons x xs ih => simp [yieldsOf, ih]

theorem requestsOf_map_yieldItem {α : Type} (l : List α) :
    requestsOf (l.map PagerEvent.yieldItem) = [] := by
  induction l with
  | nil => rfl
  | cons x xs ih => simp [requestsOf, ih]

theorem ensureCount_map_yieldItem {α : Type} (l : List α) :
    ensureCount (l.map PagerEvent.yieldItem) = 0 := by
  induction l with
  | nil => rfl
  | cons x xs ih => simp [ensureCount, ih]

theorem sleepsOf_throttleDiag {α : Type} (off sec : Nat) :
    sleepsOf (throttleDiag (α := α) off sec) = [] := by
  unfold throttleDiag
  split
  · rfl
  · split
    · rfl
    · rfl

theorem yieldsOf_throttleDiag {α : Type} (off sec : Nat) :
    yieldsOf (throttleDiag (α := α) off sec) = [] := by
  unfold throttleDiag
  split
  · rfl
  · split
    · rfl
    · rfl

/- Helper lemmas about single `_pager` loop iterations. -/

theorem pagerRun_cons_throttle {α : Type} (t : PageResponse α)
    (rest : List (PageResponse α)) (off sec : Nat) (ht : t.status = 429) :
    pagerRun (t :: rest) off sec
      = (PagerEvent.request off
          :: (throttleDiag off sec ++ PagerEvent.sleep sec :: (pagerRun rest off (sec * 2)).1),
         (pagerRun rest off (sec * 2)).2) := by
  simp [pagerRun, ht]

theorem pagerProceed_more {α : Type} (r : PageResponse α)
    (tail : List (PagerEvent α) × PagerOutcome) (ho : r.ok = true) (hm : r.has_more = true) :
    pagerProceed r tail = (r.results.map PagerEvent.yieldItem ++ tail.1, tail.2) := by
  simp [pagerProceed, ho, hm]

theorem pagerProceed_last {α : Type} (r : PageResponse α)
    (tail : List (PagerEvent α) × PagerOutcome) (ho : r.ok = true) (hm : r.has_more = false) :
    pagerProceed r tail = (r.results.map PagerEvent.yieldItem, PagerOutcome.finished) := by
  simp [pagerProceed, ho, hm]

theorem pagerRun_cons_clean {α : Type} (r : PageResponse α)
    (rest : List (PageResponse α)) (off : Nat) (hc : clean r) :
    pagerRun (r :: rest) off DEFAULT_RATE_LIMIT_TIMEOUT
      = (PagerEvent.request off
          :: (pagerProceed r (pagerRun rest r.next_offset DEFAULT_RATE_LIMIT_TIMEOUT)).1,
         (pagerProceed r (pagerRun rest r.next_offset DEFAULT_RATE_LIMIT_TIMEOUT)).2) := by
  obtain ⟨h1, h2, h3⟩ := hc
  simp [pagerRun, h1, h3]

/-- Core lemma about throttle-free runs: over clean pages where every page but the
last reports `has_more = true`, the run yields the concatenation of all `results`,
issues its requests at `off` followed by each page's `next_offset`, finishes
normally, and ignores any responses after the first `has_more = false` page. -/
theorem pagerRun_cleanRun {α : Type} (rs : List (PageResponse α)) (last : PageResponse α)
    (extra : List (PageResponse α)) (off : Nat)
    (hrs : ∀ r ∈ rs, clean r ∧ r.has_more = true)
    (hl : clean last) (hlm : last.has_more = false) :
    yieldsOf (pagerRun (rs ++ [last]) off DEFAULT_RATE_LIMIT_TIMEOUT).1
        = ((rs ++ [last]).map PageResponse.results).flatten
      ∧ requestsOf (pagerRun (rs ++ [last]) off DEFAULT_RATE_LIMIT_TIMEOUT).1
        = off :: rs.map PageResponse.next_offset
      ∧ (pagerRun (rs ++ [last]) off DEFAULT_RATE_LIMIT_TIMEOUT).2 = PagerOutcome.finished
      ∧ pagerRun (rs ++ last :: extra) off DEFAULT_RATE_LIMIT_TIMEOUT
        = pagerRun (rs ++ [last]) off DEFAULT_RATE_LIMIT_TIMEOUT := by
  obtain ⟨hl1, hl2, hl3⟩ := hl
  induction rs generalizing off with
  | nil =>
    refine ⟨?_, ?_, ?_, ?_⟩ <;>
      simp [pagerRun, pagerProceed, hl1, hl2, hl3, hlm, yieldsOf, requestsOf,
        yieldsOf_map_yieldItem, requestsOf_map_yieldItem]
  | cons r rs ih =>
    obtain ⟨⟨h1, h2, h3⟩, hm⟩ := hrs r (List.mem_cons_self r rs)
    have hrs' : ∀ x ∈ rs, clean x ∧ x.has_more = true :=
      fun x hx => hrs x (List.mem_cons_of_mem r hx)
    obtain ⟨ih1, ih2, ih3, ih4⟩ := ih r.next_offset hrs'
    refine ⟨?_, ?_, ?_, ?_⟩
    · rw [List.cons_append, pagerRun_cons_clean r _ off ⟨h1, h2, h3⟩,
        pagerProceed_more _ _ h2 hm]
      simp [yieldsOf, yieldsOf_append, yieldsOf_map_yieldItem, ih1]
    · rw [List.cons_append, pagerRun_cons_clean r _ off ⟨h1, h2, h3⟩,
        pagerProceed_more _ _ h2 hm]
      simp [requestsOf, requestsOf_append, requestsOf_map_yieldItem, ih2]
    · rw [List.cons_append, pagerRun_cons_clean r _ off ⟨h1, h2, h3⟩,
        pagerProceed_more _ _ h2 hm]
      simpa using ih3
    · rw [List.cons_append, List.cons_append, pagerRun_cons_clean r _ off ⟨h1, h2, h3⟩,
        pagerRun_cons_clean r _ off ⟨h1, h2, h3⟩, ih4]

/-- Core lemma about throttled stretches: `k` consecutive 429 responses keep the
offset fixed, emit the `throttleEvents` trace, and leave the continuation running
with the wait multiplied by `2 ^ k`. -/
theorem pagerRun_replicate_throttle {α : Type} (t : PageResponse α) (ht : t.status = 429)
    (rs : List (PageResponse α)) (off : Nat) (k sec : Nat) :
    pagerRun (List.replicate k t ++ rs) off sec
      = (throttleEvents α off k sec ++ (pagerRun rs off (sec * 2 ^ k)).1,
         (pagerRun rs off (sec * 2 ^ k)).2) := by
  induction k generalizing sec with
  | zero => simp [throttleEvents]
  | succ k ih =>
    have harith : sec * 2 * 2 ^ k = sec * 2 ^ (k + 1) := by
      rw [pow_succ]
      ring
    rw [List.replicate_succ, List.cons_append, pagerRun_cons_throttle t _ off sec ht,
      ih (sec * 2), harith]
    simp [throttleEvents]

/-- The sleep durations of `k` consecutive throttles starting from wait `sec` are
`sec, 2 * sec, …, 2 ^ (k-1) * sec`. -/
theorem sleepsOf_throttleEvents {α : Type} (off : Nat) (k sec : Nat) :
    sleepsOf (throttleEvents α off k sec) = (List.range k).map (fun i => sec * 2 ^ i) := by
  induction k generalizing sec with
  | zero => simp [throttleEvents, sleepsOf]
  | succ k ih =>
    have hfun : (fun i : Nat => sec * 2 * 2 ^ i) = fun i : Nat => sec * 2 ^ (i + 1) := by
      funext i
      rw [pow_succ]
      ring
    rw [List.range_succ_eq_map]
    simp [throttleEvents, sleepsOf, sleepsOf_append, sleepsOf_throttleDiag, ih (sec * 2),
      hfun, List.map_map, Function.comp]

/-- Core lemma about the first non-429 response after throttling: with
`rate_limit_sec` away from its default, the iteration resets the wait, calls
`_ensure_access`, skips the `error`-body check, and proceeds normally. -/
theorem pagerRun_cons_reset {α : Type} (r : PageResponse α)
    (rest : List (PageResponse α)) (off sec : Nat) (hr : r.status ≠ 429)
    (hsec : sec ≠ DEFAULT_RATE_LIMIT_TIMEOUT) :
    pagerRun (r :: rest) off sec
      = (PagerEvent.request off :: PagerEvent.ensureAccess
          :: (pagerProceed r (pagerRun rest r.next_offset DEFAULT_RATE_LIMIT_TIMEOUT)).1,
         (pagerProceed r (pagerRun rest r.next_offset DEFAULT_RATE_LIMIT_TIMEOUT)).2) := by
  simp [pagerRun, hr, hsec]

theorem requestsOf_throttleDiag {α : Type} (off sec : Nat) :
    requestsOf (throttleDiag (α := α) off sec) = [] := by
  unfold throttleDiag
  split
  · rfl
  · split
    · rfl
    · rfl

/-- Core lemma about a non-429 iteration at the default wait with no `error`
body: the loop proceeds (raise, yields, break-or-continue) after the request. -/
theorem pagerRun_cons_plain {α : Type} (r : PageResponse α) (rest : List (PageResponse α))
    (off : Nat) (h429 : r.status ≠ 429) (herr : r.hasError = false) :
    pagerRun (r :: rest) off DEFAULT_RATE_LIMIT_TIMEOUT
      = (PagerEvent.request off
          :: (pagerProceed r (pagerRun rest r.next_offset DEFAULT_RATE_LIMIT_TIMEOUT)).1,
         (pagerProceed r (pagerRun rest r.next_offset DEFAULT_RATE_LIMIT_TIMEOUT)).2) := by
  simp [pagerRun, h429, herr]

/-- Core lemma about offset monotonicity over arbitrary runs: whatever mix of
429s, error bodies, raising statuses and wait states a run goes through, if the
starting offset followed by the `next_offset` cursors of the non-429 responses
is a non-decreasing chain, then the offsets of the issued requests are a
non-decreasing chain, all bounded below by the starting offset (a 429 retry
reuses the current offset; only adopted cursors move it). -/
theorem pagerRun_requests_mono {α : Type} (rs : List (PageResponse α)) : ∀ (off sec : Nat),
    List.Chain' (fun a b => a ≤ b)
        (off :: (rs.filter fun r => r.status != 429).map PageResponse.next_offset) →
    List.Chain' (fun a b => a ≤ b) (requestsOf (pagerRun rs off sec).1)
      ∧ ∀ x ∈ requestsOf (pagerRun rs off sec).1, off ≤ x := by
  induction rs with
  | nil =>
    intro off sec h
    simp [pagerRun, requestsOf]
  | cons r rest ih =>
    intro off sec h
    by_cases h429 : r.status = 429
    · have hf : ((r :: rest).filter fun x => x.status != 429)
          = rest.filter fun x => x.status != 429 := by
        simp [List.filter_cons, h429]
      rw [hf] at h
      obtain ⟨hchain, hbound⟩ := ih off (sec * 2) h
      have hreq : requestsOf (pagerRun (r :: rest) off sec).1
          = off :: requestsOf (pagerRun rest off (sec * 2)).1 := by
        rw [pagerRun_cons_throttle r rest off sec h429]
        simp [requestsOf, requestsOf_append, requestsOf_throttleDiag]
      rw [hreq]
      constructor
      · rw [List.chain'_cons']
        exact ⟨fun y hy => hbound y (List.mem_of_mem_head? hy), hchain⟩
      · intro x hx
        rcases List.mem_cons.1 hx with hx | hx
        · omega
        · exact hbound x hx
    · have hf : ((r :: rest).filter fun x => x.status != 429)
          = r :: rest.filter fun x => x.status != 429 := by
        simp [List.filter_cons, h429]
      rw [hf] at h
      simp only [List.map_cons] at h
      rw [List.chain'_cons] at h
      obtain ⟨hle, h'⟩ := h
      obtain ⟨hchain, hbound⟩ := ih r.next_offset DEFAULT_RATE_LIMIT_TIMEOUT h'
      have hp : requestsOf
            (pagerProceed r (pagerRun rest r.next_offset DEFAULT_RATE_LIMIT_TIMEOUT)).1 = []
          ∨ requestsOf
              (pagerProceed r (pagerRun rest r.next_offset DEFAULT_RATE_LIMIT_TIMEOUT)).1
            = requestsOf (pagerRun rest r.next_offset DEFAULT_RATE_LIMIT_TIMEOUT).1 := by
        cases ho : r.ok with
        | false =>
          left
          simp [pagerProceed, ho, requestsOf]
        | true =>
          cases hm : r.has_more with
          | false =>
            left
            simp [pagerProceed, ho, hm, requestsOf_map_yieldItem]
          | true =>
            right
            simp [pagerProceed, ho, hm, requestsOf_append, requestsOf_map_yieldItem]
      have hreq : requestsOf (pagerRun (r :: rest) off sec).1
            = off :: requestsOf
                (pagerProceed r (pagerRun rest r.next_offset DEFAULT_RATE_LIMIT_TIMEOUT)).1
          ∨ requestsOf (pagerRun (r :: rest) off sec).1 = [off] := by
        by_cases hsec : sec = DEFAULT_RATE_LIMIT_TIMEOUT
        · subst hsec
          cases herr : r.hasError with
          | true =>
            right
            simp [pagerRun, h429, herr, requestsOf]
          | false =>
            left
            rw [pagerRun_cons_plain r rest off h429 herr]
            simp [requestsOf]
        · left
          rw [pagerRun_cons_reset r rest off sec h429 hsec]
          simp [requestsOf]
      rcases hreq with hreq | hreq
      · rcases hp with hp | hp
        · rw [hreq, hp]
          constructor
          · simp
          · intro x hx
            simp at hx
            omega
        · rw [hreq, hp]
          constructor
          · rw [List.chain'_cons']
            exact ⟨fun y hy => Nat.le_trans hle (hbound y (List.mem_of_mem_head? hy)), hchain⟩
          · intro x hx
            rcases List.mem_cons.1 hx with hx | hx
            · omega
            · exact Nat.le_trans hle (hbound x hx)
      · rw [hreq]
        constructor
        · simp
        · intro x hx
          simp at hx
          omega

/-- Core lemma about termination at a breaking page, over arbitrary runs: a
well-formed page response with `has_more = false` is never consumed past —
whatever prefix (429s, error quits, raises included) and wait state precede it,
dropping everything after it leaves the run unchanged. -/
theorem pagerRun_cut {α : Type} (last : PageResponse α) (hl : clean last)
    (hlm : last.has_more = false) :
    ∀ (pre extra : List (PageResponse α)) (off sec : Nat),
    pagerRun (pre ++ last :: extra) off sec = pagerRun (pre ++ [last]) off sec := by
  obtain ⟨h1, h2, h3⟩ := hl
  intro pre
  induction pre with
  | nil =>
    intro extra off sec
    simp only [List.nil_append]
    by_cases hsec : sec = DEFAULT_RATE_LIMIT_TIMEOUT
    · subst hsec
      rw [pagerRun_cons_plain last extra off h1 h3, pagerRun_cons_plain last [] off h1 h3,
        pagerProceed_last _ _ h2 hlm, pagerProceed_last _ _ h2 hlm]
    · rw [pagerRun_cons_reset last extra off sec h1 hsec,
        pagerRun_cons_reset last [] off sec h1 hsec,
        pagerProceed_last _ _ h2 hlm, pagerProceed_last _ _ h2 hlm]
  | cons r pre ih =>
    intro extra off sec
    by_cases h429 : r.status = 429
    · rw [List.cons_append, List.cons_append, pagerRun_cons_throttle r _ off sec h429,
        pagerRun_cons_throttle r _ off sec h429, ih extra off (sec * 2)]
    · by_cases hsec : sec = DEFAULT_RATE_LIMIT_TIMEOUT
      · subst hsec
        cases herr : r.hasError with
        | true =>
          rw [List.cons_append, List.cons_append]
          simp [pagerRun, h429, herr]
        | false =>
          rw [List.cons_append, List.cons_append, pagerRun_cons_plain r _ off h429 herr,
            pagerRun_cons_plain r _ off h429 herr,
            ih extra r.next_offset DEFAULT_RATE_LIMIT_TIMEOUT]
      · rw [List.cons_append, List.cons_append, pagerRun_cons_reset r _ off sec h429 hsec,
          pagerRun_cons_reset r _ off sec h429 hsec,
          ih extra r.next_offset DEFAULT_RATE_LIMIT_TIMEOUT]

/-- C1: for every sequence of clean page responses (no throttling, no `error`
field) whose pages all report `has_more = true` except the final one, `_pager`
yields exactly the concatenation of each page's `results` in server order and
then terminates the sequence normally at that first `has_more = false` page. -/
theorem claim1 (α : Type) (rs : List (PageResponse α)) (last : PageResponse α)
    (hrs : ∀ r ∈ rs, clean r ∧ r.has_more = true)
    (hl : clean last) (hlm : last.has_more = false) :
    yieldsOf (pager (rs ++ [last])).1 = ((rs ++ [last]).map PageResponse.results).flatten
      ∧ (pager (rs ++ [last])).2 = PagerOutcome.finished := by
  have h := pagerRun_cleanRun rs last [] 0 hrs hl hlm
  exact ⟨h.1, h.2.2.1⟩

theorem claim1_witness :
    yieldsOf (pager ([pageEx [1, 2] true 24] ++ [pageEx [3] false 0])).1
        = (([pageEx [1, 2] true 24] ++ [pageEx [3] false 0]).map PageResponse.results).flatten
      ∧ (pager ([pageEx [1, 2] true 24] ++ [pageEx [3] false 0])).2 = PagerOutcome.finished :=
  claim1 Nat [pageEx [1, 2] true 24] (pageEx [3] false 0) (by decide) (by decide) (by decide)

/-- C2: a run of `k ≥ 1` consecutive 429 responses followed by a non-429 response
sleeps exactly `32, 64, …, 32 * 2 ^ (k-1)` seconds, handles the non-429 response
with the wait reset to the default (the continuation runs at
`DEFAULT_RATE_LIMIT_TIMEOUT` again), and calls `_ensure_access` exactly once
while handling that first post-throttle response, before any of its items are
yielded. -/
theorem claim2 (α : Type) (k : Nat) (t r : PageResponse α) (rest : List (PageResponse α))
    (off : Nat) (hk : 1 ≤ k) (ht : t.status = 429) (hr : r.status ≠ 429) :
    pagerRun (List.replicate k t ++ r :: rest) off DEFAULT_RATE_LIMIT_TIMEOUT
        = (throttleEvents α off k DEFAULT_RATE_LIMIT_TIMEOUT
            ++ PagerEvent.request off :: PagerEvent.ensureAccess
              :: (pagerProceed r (pagerRun rest r.next_offset DEFAULT_RATE_LIMIT_TIMEOUT)).1,
           (pagerProceed r (pagerRun rest r.next_offset DEFAULT_RATE_LIMIT_TIMEOUT)).2)
      ∧ sleepsOf (throttleEvents α off k DEFAULT_RATE_LIMIT_TIMEOUT)
        = (List.range k).map (fun i => DEFAULT_RATE_LIMIT_TIMEOUT * 2 ^ i)
      ∧ ensureCount (PagerEvent.request off :: PagerEvent.ensureAccess
          :: r.results.map PagerEvent.yieldItem) = 1 := by
  have h2k : 1 < 2 ^ k := Nat.one_lt_two_pow_iff.mpr (by omega)
  have hne : DEFAULT_RATE_LIMIT_TIMEOUT * 2 ^ k ≠ DEFAULT_RATE_LIMIT_TIMEOUT := by
    unfold DEFAULT_RATE_LIMIT_TIMEOUT
    omega
  refine ⟨?_, sleepsOf_throttleEvents off k DEFAULT_RATE_LIMIT_TIMEOUT, ?_⟩
  · rw [pagerRun_replicate_throttle t ht (r :: rest) off k DEFAULT_RATE_LIMIT_TIMEOUT,
      pagerRun_cons_reset r rest off (DEFAULT_RATE_LIMIT_TIMEOUT * 2 ^ k) hr hne]
  · simp [ensureCount, ensureCount_map_yieldItem]

theorem claim2_witness :
    pagerRun (List.replicate 2 throttleEx ++ pageEx [7] false 0 :: []) 9
          DEFAULT_RATE_LIMIT_TIMEOUT
        = (throttleEvents Nat 9 2 DEFAULT_RATE_LIMIT_TIMEOUT
            ++ PagerEvent.request 9 :: PagerEvent.ensureAccess
              :: (pagerProceed (pageEx [7] false 0)
                  (pagerRun [] (pageEx [7] false 0).next_offset DEFAULT_RATE_LIMIT_TIMEOUT)).1,
           (pagerProceed (pageEx [7] false 0)
              (pagerRun [] (pageEx [7] false 0).next_offset DEFAULT_RATE_LIMIT_TIMEOUT)).2)
      ∧ sleepsOf (throttleEvents Nat 9 2 DEFAULT_RATE_LIMIT_TIMEOUT)
        = (List.range 2).map (fun i => DEFAULT_RATE_LIMIT_TIMEOUT * 2 ^ i)
      ∧ ensureCount (PagerEvent.request 9 :: PagerEvent.ensureAccess
          :: (pageEx [7] false 0).results.map PagerEvent.yieldItem) = 1 :=
  claim2 Nat 2 throttleEx (pageEx [7] false 0) [] 9 (by decide) (by decide) (by decide)

/-- C3: over a clean run, the offsets of the issued requests are the initial
offset followed verbatim by each response's `next_offset` (the server cursor is
adopted, never client-computed); and a 429 response makes the loop retry with the
continuation still at the same offset, its own events (request, diagnostic,
sleep) yielding no item. -/
theorem claim3 (α : Type) :
    (∀ (rs : List (PageResponse α)) (last : PageResponse α) (off : Nat),
        (∀ r ∈ rs, clean r ∧ r.has_more = true) → clean last → last.has_more = false →
        requestsOf (pagerRun (rs ++ [last]) off DEFAULT_RATE_LIMIT_TIMEOUT).1
          = off :: rs.map PageResponse.next_offset)
      ∧ (∀ (t : PageResponse α) (rest : List (PageResponse α)) (off sec : Nat),
          t.status = 429 →
          pagerRun (t :: rest) off sec
              = (PagerEvent.request off
                  :: (throttleDiag off sec
                      ++ PagerEvent.sleep sec :: (pagerRun rest off (sec * 2)).1),
                 (pagerRun rest off (sec * 2)).2)
            ∧ yieldsOf (PagerEvent.request off
                :: (throttleDiag (α := α) off sec ++ [PagerEvent.sleep sec])) = []) := by
  constructor
  · intro rs last off hrs hl hlm
    exact (pagerRun_cleanRun rs last [] off hrs hl hlm).2.1
  · intro t rest off sec ht
    refine ⟨pagerRun_cons_throttle t rest off sec ht, ?_⟩
    simp [yieldsOf, yieldsOf_append, yieldsOf_throttleDiag]

theorem claim3_witness :
    requestsOf (pagerRun ([pageEx [1] true 24] ++ [pageEx [2] false 0]) 0
          DEFAULT_RATE_LIMIT_TIMEOUT).1
        = 0 :: [pageEx [1] true 24].map PageResponse.next_offset
      ∧ (pagerRun (throttleEx :: []) 7 32
            = (PagerEvent.request 7
                :: (throttleDiag 7 32 ++ PagerEvent.sleep 32
                    :: (pagerRun ([] : List (PageResponse Nat)) 7 (32 * 2)).1),
               (pagerRun ([] : List (PageResponse Nat)) 7 (32 * 2)).2)
          ∧ yieldsOf (PagerEvent.request 7
              :: (throttleDiag (α := Nat) 7 32 ++ [PagerEvent.sleep 32])) = []) :=
  ⟨(claim3 Nat).1 [pageEx [1] true 24] (pageEx [2] false 0) 0 (by decide) (by decide)
      (by decide),
    (claim3 Nat).2 throttleEx [] 7 32 (by decide)⟩

/-- C7: a 429 response arriving while the current wait exceeds `64 * 10` seconds
triggers an `_ensure_access` call before the corresponding sleep. -/
theorem claim7 (α : Type) (t : PageResponse α) (rest : List (PageResponse α))
    (off sec : Nat) (ht : t.status = 429) (hsec : sec > 64 * 10) :
    pagerRun (t :: rest) off sec
      = (PagerEvent.request off :: PagerEvent.ensureAccess :: PagerEvent.sleep sec
          :: (pagerRun rest off (sec * 2)).1,
         (pagerRun rest off (sec * 2)).2) := by
  have h32 : ¬(sec = DEFAULT_RATE_LIMIT_TIMEOUT) := by
    unfold DEFAULT_RATE_LIMIT_TIMEOUT
    omega
  rw [pagerRun_cons_throttle t rest off sec ht]
  simp [throttleDiag, h32, hsec]

theorem claim7_witness :
    pagerRun (throttleEx :: []) 3 1024
      = (PagerEvent.request 3 :: PagerEvent.ensureAccess :: PagerEvent.sleep 1024
          :: (pagerRun ([] : List (PageResponse Nat)) 3 (1024 * 2)).1,
         (pagerRun ([] : List (PageResponse Nat)) 3 (1024 * 2)).2) :=
  claim7 Nat throttleEx [] 3 1024 (by decide) (by decide)

/-- C8 counterexample: the code adopts `next_offset` verbatim, so a server that
answers with a decreasing cursor makes the requested offsets non-monotone: at
this concrete input the requests go `0, 5, 3`. -/
theorem claim8_counterexample :
    requestsOf (pager [pageEx [] true 5, pageEx [] true 3, pageEx [] false 0]).1 = [0, 5, 3]
      ∧ ¬List.Chain' (fun a b : Nat => a ≤ b) [0, 5, 3] := by
  refine ⟨?_, by norm_num [List.chain'_cons]⟩
  rfl

/-- C8 (amended): over every single pagination run and every sequence of server
responses — 429s, error bodies, raising statuses and any wait state included —
provided the initial offset followed by the `next_offset` cursors of the non-429
responses forms a non-decreasing chain (the code adopts the server cursor
verbatim, and a 429 retry reuses the current offset), the offsets of the issued
requests are monotonically non-decreasing; and the run never consumes past the
first well-formed page response reporting `has_more = false`: dropping everything
after such a page leaves the run unchanged, whatever precedes it. -/
theorem claim8 (α : Type) :
    (∀ (rs : List (PageResponse α)) (off sec : Nat),
        List.Chain' (fun a b => a ≤ b)
            (off :: (rs.filter fun r => r.status != 429).map PageResponse.next_offset) →
        List.Chain' (fun a b => a ≤ b) (requestsOf (pagerRun rs off sec).1))
      ∧ (∀ (pre : List (PageResponse α)) (last : PageResponse α)
            (extra : List (PageResponse α)) (off sec : Nat),
          clean last → last.has_more = false →
          pagerRun (pre ++ last :: extra) off sec = pagerRun (pre ++ [last]) off sec) := by
  constructor
  · intro rs off sec h
    exact (pagerRun_requests_mono rs off sec h).1
  · intro pre last extra off sec hl hlm
    exact pagerRun_cut last hl hlm pre extra off sec

theorem claim8_witness :
    List.Chain' (fun a b => a ≤ b)
        (requestsOf (pagerRun
            [pageEx [] true 5, throttleEx, pageEx [] true 7, pageEx [2] false 9] 0
            DEFAULT_RATE_LIMIT_TIMEOUT).1)
      ∧ pagerRun ([pageEx [] true 5, throttleEx] ++ pageEx [2] false 9 :: [pageEx [9] true 0])
            0 DEFAULT_RATE_LIMIT_TIMEOUT
        = pagerRun ([pageEx [] true 5, throttleEx] ++ [pageEx [2] false 9]) 0
            DEFAULT_RATE_LIMIT_TIMEOUT :=
  ⟨(claim8 Nat).1 [pageEx [] true 5, throttleEx, pageEx [] true 7, pageEx [2] false 9] 0
      DEFAULT_RATE_LIMIT_TIMEOUT
      (show List.Chain' (fun a b : Nat => a ≤ b) [0, 5, 7, 9] by
        norm_num [List.chain'_cons]),
    (claim8 Nat).2 [pageEx [] true 5, throttleEx] (pageEx [2] false 9) [pageEx [9] true 0] 0
      DEFAULT_RATE_LIMIT_TIMEOUT (by decide) (by decide)⟩

/-- C4: `_ensure_access` performs at most one token exchange and never loops (it
is a plain function of its inputs); an `authorization_code` exchange happens only
when `refresh_token` is absent; with a `refresh_token` present it issues the
probe first and, on probe success, returns after that single HTTP call with no
exchange and no state change, while on probe failure the only further HTTP call
is a `refresh_token` exchange. -/
theorem claim4 (s : DAState) (probeSuccess : Bool) (data : TokenResponse) :
    tokenCallCount (ensure_access s probeSuccess data).1 ≤ 1
      ∧ (EnsureEvent.tokenCall GrantKind.authorization_code
            ∈ (ensure_access s probeSuccess data).1
          → s.refresh_token = none)
      ∧ (s.refresh_token ≠ none → probeSuccess = true →
          ensure_access s probeSuccess data
            = ([EnsureEvent.probeCall], s, none, EnsureOutcome.done))
      ∧ (s.refresh_token ≠ none → probeSuccess = false →
          (ensure_access s probeSuccess data).1
            = [EnsureEvent.probeCall, EnsureEvent.tokenCall GrantKind.refresh_token]) := by
  cases hrt : s.refresh_token with
  | none =>
    cases hc : s.code with
    | none => simp [ensure_access, fetch_access_token, hrt, hc, tokenCallCount]
    | some c => simp [ensure_access, fetch_access_token, hrt, hc, tokenCallCount]
  | some rt =>
    cases probeSuccess with
    | true => simp [ensure_access, hrt, tokenCallCount]
    | false => simp [ensure_access, refresh_access_token, hrt, tokenCallCount]

theorem claim4_witness :
    tokenCallCount (ensure_access stateEx true tokenOkEx).1 ≤ 1
      ∧ (EnsureEvent.tokenCall GrantKind.authorization_code
            ∈ (ensure_access stateEx true tokenOkEx).1
          → stateEx.refresh_token = none)
      ∧ (stateEx.refresh_token ≠ none → true = true →
          ensure_access stateEx true tokenOkEx
            = ([EnsureEvent.probeCall], stateEx, none, EnsureOutcome.done))
      ∧ (stateEx.refresh_token ≠ none → true = false →
          (ensure_access stateEx true tokenOkEx).1
            = [EnsureEvent.probeCall, EnsureEvent.tokenCall GrantKind.refresh_token]) :=
  claim4 stateEx true tokenOkEx

/-- C5: every credential snapshot handed to the store by `_save_tokens` has the
`authorization_code` popped, so no persist after a successful exchange ever
contains it again; and whenever `_authorize` persists a snapshot, its
`access_token` and `refresh_token` are exactly the pair of the one token-endpoint
response of that successful exchange — never a mix of old and new. -/
theorem claim5 :
    (∀ s : DAState, (save_tokens s).oauth.code = none)
      ∧ (∀ (s : DAState) (data : TokenResponse) (c : SiteCreds),
          (authorize s data).2.1 = some c →
          c.oauth.code = none
            ∧ c.oauth.access_token = data.access_token
            ∧ c.oauth.refresh_token = data.refresh_token
            ∧ (authorize s data).2.2 = AuthResult.exchanged) := by
  constructor
  · intro s
    rfl
  · intro s data c hc
    cases he : data.hasError with
    | true => cases hdesc : data.error_description <;> simp [authorize, he, hdesc] at hc
    | false =>
      cases ho : data.ok with
      | false =>
        cases hdesc : data.error_description with
        | none => simp [authorize, he, ho, hdesc] at hc
        | some d =>
          rcases eq_or_ne d INVALID_CODE_MSG with hd | hd <;>
            simp [authorize, he, ho, hdesc, hd] at hc
      | true =>
        cases hat : data.access_token with
        | none => simp [authorize, he, ho, hat] at hc
        | some a =>
          cases hrt : data.refresh_token with
          | none => simp [authorize, he, ho, hat, hrt] at hc
          | some r =>
            simp [authorize, he, ho, hat, hrt] at hc
            refine ⟨?_, ?_, ?_, ?_⟩ <;>
              simp [← hc, save_tokens, authorize, he, ho, hat, hrt]

theorem claim5_witness :
    savedEx.oauth.code = none
      ∧ savedEx.oauth.access_token = tokenOkEx.access_token
      ∧ savedEx.oauth.refresh_token = tokenOkEx.refresh_token
      ∧ (authorize stateEx tokenOkEx).2.2 = AuthResult.exchanged :=
  claim5.2 stateEx tokenOkEx savedEx (by decide)

/-- C6 counterexample: a token-endpoint HTTP failure whose body carries both an
`error` key and the invalid-code `error_description` hits the generic fatal
branch (`quit(1)`) of the `if`/`elif` chain of `_authorize`, not the distinct
invalid-code signal, so the claim as universally stated fails at this input. -/
theorem claim6_counterexample :
    tokenErrEx.ok = false
      ∧ tokenErrEx.error_description = some INVALID_CODE_MSG
      ∧ (authorize stateEx tokenErrEx).2.2 = AuthResult.fatalQuit
      ∧ AuthResult.fatalQuit ≠ AuthResult.needsReauth := by
  refine ⟨rfl, rfl, rfl, by decide⟩

/-- C6 (amended): for every token-endpoint response that is an HTTP failure,
whose JSON body contains no `error` key, and whose `error_description` equals the
invalid-code message, `_authorize` signals the distinct invalid-code condition
(`'Please authorize again'`), leaving state and store untouched and performing no
retry with `refresh_token`. -/
theorem claim6 (s : DAState) (data : TokenResponse) (he : data.hasError = false)
    (ho : data.ok = false) (hd : data.error_description = some INVALID_CODE_MSG) :
    authorize s data = (s, none, AuthResult.needsReauth) := by
  simp [authorize, he, ho, hd]

theorem claim6_witness :
    tokenInvalidEx.hasError = false
      ∧ tokenInvalidEx.ok = false
      ∧ tokenInvalidEx.error_description = some INVALID_CODE_MSG
      ∧ authorize stateEx tokenInvalidEx = (stateEx, none, AuthResult.needsReauth) :=
  ⟨rfl, rfl, rfl, claim6 stateEx tokenInvalidEx rfl rfl rfl⟩

/-- C10: for every token-endpoint response that is not HTTP-ok and whose body has
no `error` key, `_authorize` leaves the instance tokens unchanged and persists
nothing, whether it then signals (invalid-code message, or the `KeyError` of a
missing `error_description`) or falls through silently; in no such case is an
exchange result applied. -/
theorem claim10 (s : DAState) (data : TokenResponse) (ho : data.ok = false)
    (he : data.hasError = false) :
    (authorize s data).1 = s
      ∧ (authorize s data).2.1 = none
      ∧ (authorize s data).2.2 ≠ AuthResult.exchanged
      ∧ ((authorize s data).2.2 = AuthResult.needsReauth
          ∨ (authorize s data).2.2 = AuthResult.silentReturn
          ∨ (authorize s data).2.2 = AuthResult.keyError) := by
  cases hdesc : data.error_description with
  | none => simp [authorize, he, ho, hdesc]
  | some d =>
    rcases eq_or_ne d INVALID_CODE_MSG with hd | hd <;>
      simp [authorize, he, ho, hdesc, hd]

theorem claim10_witness :
    (authorize stateEx tokenBareFailEx).1 = stateEx
      ∧ (authorize stateEx tokenBareFailEx).2.1 = none
      ∧ (authorize stateEx tokenBareFailEx).2.2 ≠ AuthResult.exchanged
      ∧ ((authorize stateEx tokenBareFailEx).2.2 = AuthResult.needsReauth
          ∨ (authorize stateEx tokenBareFailEx).2.2 = AuthResult.silentReturn
          ∨ (authorize stateEx tokenBareFailEx).2.2 = AuthResult.keyError) :=
  claim10 stateEx tokenBareFailEx rfl rfl

/-- C9: for every sequence of records produced by the pager, `list_folder_arts`
yields every record — `None` included — unmodified and in pager order, and
notifies the external cache exactly for the non-null records, keyed by
`make_cache_key` of the author username and item URL and mapped to the internal
`deviationid`. -/
theorem claim9 (arts : List (Option Art)) :
    yieldedArts (list_folder_arts arts) = arts
      ∧ cacheInserts (list_folder_arts arts)
        = (arts.filterMap id).map
            (fun a => (SLUG, make_cache_key a.author_username a.url, a.deviationid)) := by
  induction arts with
  | nil => exact ⟨rfl, rfl⟩
  | cons a rest ih =>
    cases a with
    | none =>
      simp [list_folder_arts, yieldedArts, cacheInserts, List.filterMap_cons, ih.1, ih.2]
    | some art =>
      simp [list_folder_arts, yieldedArts, cacheInserts, List.filterMap_cons, ih.1, ih.2]

end DA
